import Mathlib

/-!
Shallow embedding of the hyprvoice (dev-voice) session core: the control
protocol (request/response wire contract), the session store
(claim / inspect / release over the state directory), the toggle-mode
start/stop commands of src/main.rs, and the model download/verify pipeline
of src/model/download.rs and src/model/verify.rs.

Modules of the repository that are referenced only through tests or callers
(the daemon protocol module, state/toggle.rs, state/paths.rs, the audio
module) are modelled from the specification, as marked on each definition.
-/

set_option autoImplicit false

namespace DevVoice

/-! ## Control protocol (spec section 6 wire schema; tests/daemon_protocol.rs) -/

/-- Conceptual JSON values, the wire representation of the control protocol. -/
inductive Json where
  | str (s : String)
  | num (n : Nat)
  | bool (b : Bool)
  | null
  | arr (elems : List Json)
  | obj (fields : List (String × Json))

/-- Requests of the control protocol (DaemonRequest in tests/daemon_protocol.rs). -/
inductive DaemonRequest where
  | ping
  | startRecording (max_duration : Nat)
  | stopRecording
  | shutdown
  deriving DecidableEq, Repr

/-- Responses of the control protocol (DaemonResponse in tests/daemon_protocol.rs). -/
inductive DaemonResponse where
  | ok (message : String)
  | recording
  | success (text : String)
  | error (message : String)
  deriving DecidableEq, Repr

/-- Decode failures: empty input, non-object input, missing or unknown
discriminant, missing or ill-typed required field. -/
inductive DecodeError where
  | emptyInput
  | notAnObject
  | missingTag
  | unknownTag (tag : String)
  | missingField (name : String)
  | typeMismatch (name : String)
  deriving DecidableEq, Repr

/-- First binding of a key in a JSON object field list. -/
def getField : List (String × Json) → String → Option Json
  | [], _ => none
  | (k, v) :: rest, key => if k = key then some v else getField rest key

/-- Modelled from the spec: the daemon protocol module is not under src/.
Wire schema of requests (spec section 6): a tagged object with field
type and, for StartRecording, the max_duration field. -/
def encodeRequest : DaemonRequest → Json
  | .ping => .obj [("type", .str "Ping")]
  | .startRecording d => .obj [("type", .str "StartRecording"), ("max_duration", .num d)]
  | .stopRecording => .obj [("type", .str "StopRecording")]
  | .shutdown => .obj [("type", .str "Shutdown")]

/-- Modelled from the spec: the daemon protocol module is not under src/.
Wire schema of responses (spec section 6). -/
def encodeResponse : DaemonResponse → Json
  | .ok m => .obj [("type", .str "Ok"), ("message", .str m)]
  | .recording => .obj [("type", .str "Recording")]
  | .success t => .obj [("type", .str "Success"), ("text", .str t)]
  | .error m => .obj [("type", .str "Error"), ("message", .str m)]

/-- Modelled from the spec: the daemon protocol module is not under src/.
Strict decode of a request: unknown type values, or absence of required
fields for a given type, are decode errors (spec section 6). -/
def decodeRequest (j : Json) : Except DecodeError DaemonRequest :=
  match j with
  | .obj fields =>
    match getField fields "type" with
    | some (.str t) =>
      if t = "Ping" then .ok .ping
      else if t = "StartRecording" then
        match getField fields "max_duration" with
        | some (.num d) => .ok (.startRecording d)
        | some _ => .error (.typeMismatch "max_duration")
        | none => .error (.missingField "max_duration")
      else if t = "StopRecording" then .ok .stopRecording
      else if t = "Shutdown" then .ok .shutdown
      else .error (.unknownTag t)
    | some _ => .error (.typeMismatch "type")
    | none => .error .missingTag
  | _ => .error .notAnObject

/-- Modelled from the spec: the daemon protocol module is not under src/.
Strict decode of a response (spec section 6). -/
def decodeResponse (j : Json) : Except DecodeError DaemonResponse :=
  match j with
  | .obj fields =>
    match getField fields "type" with
    | some (.str t) =>
      if t = "Ok" then
        match getField fields "message" with
        | some (.str m) => .ok (.ok m)
        | some _ => .error (.typeMismatch "message")
        | none => .error (.missingField "message")
      else if t = "Recording" then .ok .recording
      else if t = "Success" then
        match getField fields "text" with
        | some (.str s) => .ok (.success s)
        | some _ => .error (.typeMismatch "text")
        | none => .error (.missingField "text")
      else if t = "Error" then
        match getField fields "message" with
        | some (.str m) => .ok (.error m)
        | some _ => .error (.typeMismatch "message")
        | none => .error (.missingField "message")
      else .error (.unknownTag t)
    | some _ => .error (.typeMismatch "type")
    | none => .error .missingTag
  | _ => .error .notAnObject

/-- Raw input decode: empty (or unparseable) input carries no JSON value and
is a decode error, not an empty Ping (spec section 6). -/
def decodeRequestInput : Option Json → Except DecodeError DaemonRequest
  | none => .error .emptyInput
  | some j => decodeRequest j

/-- Raw input decode for responses. -/
def decodeResponseInput : Option Json → Except DecodeError DaemonResponse
  | none => .error .emptyInput
  | some j => decodeResponse j

/-- The discriminant a request serializes under. -/
def requestTag : DaemonRequest → String
  | .ping => "Ping"
  | .startRecording _ => "StartRecording"
  | .stopRecording => "StopRecording"
  | .shutdown => "Shutdown"

/-- The discriminant a response serializes under. -/
def responseTag : DaemonResponse → String
  | .ok _ => "Ok"
  | .recording => "Recording"
  | .success _ => "Success"
  | .error _ => "Error"

/-- The closed set of request discriminants. -/
def requestTags : List String := ["Ping", "StartRecording", "StopRecording", "Shutdown"]

/-- The closed set of response discriminants. -/
def responseTags : List String := ["Ok", "Recording", "Success", "Error"]

/-! ## Session store (spec section 4.2; state/toggle.rs is not under src/) -/

/-- The record of an active session (RecordingState of state/toggle.rs,
re-exported by state/mod.rs; main.rs reads its pid field): process identity
and claim timestamp. -/
structure RecordingState where
  pid : Nat
  claimedAt : Nat
  deriving DecidableEq, Repr

/-- The shared state directory as the session store sees it: the optional
recording file (SessionState) and the processing marker file. -/
structure Store where
  recording : Option RecordingState
  processing : Bool
  deriving DecidableEq, Repr

/-- The idle store: no SessionState file, no processing marker. -/
def emptyStore : Store := ⟨none, false⟩

/-- Result of a claim attempt. -/
inductive ClaimResult where
  | claimed (s : RecordingState)
  | alreadyActive (existing : RecordingState)
  deriving DecidableEq, Repr

/-- Whether a claim attempt succeeded. -/
def ClaimResult.isClaimed : ClaimResult → Bool
  | .claimed _ => true
  | .alreadyActive _ => false

/-- Modelled from the spec: state/toggle.rs (start_recording) is not under
src/. Atomic create-if-absent of the SessionState file: the claim succeeds
exactly when no SessionState is present; otherwise the caller receives
AlreadyActive carrying the existing SessionState (spec section 4.2). -/
def claim (st : Store) (p : RecordingState) : ClaimResult × Store :=
  match st.recording with
  | some existing => (.alreadyActive existing, st)
  | none => (.claimed p, { st with recording := some p })

/-- Modelled from the spec: state/toggle.rs (cleanup_recording) is not under
src/. Removes the SessionState file only if its contents still match the
expected state; a no-op if absent or non-matching (spec section 4.2). -/
def release (st : Store) (expected : RecordingState) : Store :=
  match st.recording with
  | some cur => if cur = expected then { st with recording := none } else st
  | none => st

/-- Concurrent claim attempts, interleaved as a sequence of atomic
create-if-absent steps: the filesystem guarantees each individual claim is
atomic, so every concurrent execution is one of these interleavings
(spec section 5). -/
def runClaims (st : Store) : List RecordingState → List ClaimResult × Store
  | [] => ([], st)
  | p :: ps =>
    let step := claim st p
    let rest := runClaims step.2 ps
    (step.1 :: rest.1, rest.2)

/-- Modelled from the spec: state/toggle.rs (stop_recording) is not under
src/. Delivers the termination signal to the recorded process identity and
releases the store entry (spec section 4.4, StopRecording row). -/
def stopRecording (st : Store) (rs : RecordingState) : Store :=
  release st rs

/-- Modelled from the spec: the daemon session controller is not under src/.
The response-selection table of spec section 4.4, one row per request
variant against the current SessionState. -/
def handleRequest (st : Store) (self : RecordingState) :
    DaemonRequest → DaemonResponse × Store
  | .ping => (.ok "pong", st)
  | .startRecording _ =>
    match st.recording with
    | some _ => (.recording, st)
    | none => (.ok "started", { st with recording := some self })
  | .stopRecording =>
    match st.recording with
    | some cur => (.ok "stopping", stopRecording st cur)
    | none => (.ok "nothing to stop", st)
  | .shutdown => (.ok "shutting down", { st with recording := none })

/-- cmd_stop of src/main.rs (295-304): signal and release when a recording
is active, otherwise report that nothing is in progress. -/
def cmdStop (st : Store) : String × Store :=
  match st.recording with
  | some rs => ("Stop signal sent to recording process", stopRecording st rs)
  | none => ("No recording in progress", st)

/-! ## Toggle-mode start command (src/main.rs) and capture (spec section 4.3) -/

/-- Maximum recording duration in toggle mode, 5 minutes (src/main.rs line 17). -/
def TOGGLE_MODE_TIMEOUT_SECS : Nat := 300

/-- Reason capture returned (spec section 4.3): the cooperative stop flag
was set, or the maximum duration elapsed. -/
inductive StopReason where
  | signaled
  | timedOut
  deriving DecidableEq, Repr

/-- Outcome of a command invocation: Ok(()) or an anyhow error (any bail or
propagated failure, unwinding included, modelled as the error exit). -/
inductive CmdResult where
  | ok
  | err
  deriving DecidableEq, Repr

/-- Observable events of one start command invocation, in program order. -/
inductive Event where
  | stopForwarded
  | claimed
  | captureEnd
  | markerSet
  | transcribeStart
  | transcribeEnd
  | outputDone
  | markerRemoved
  deriving DecidableEq, Repr

/-- Oracle for the excluded collaborators consulted by cmd_start_toggle and
cmd_start_fixed of src/main.rs: the state this process would record, config
loading, model presence, transcriber construction, audio capture and
transcription outcomes, and text output. -/
structure ToggleEnv where
  selfState : RecordingState
  configOk : Bool
  modelExists : Bool
  transcriberOk : Bool
  captureOutcome : Except Unit (List Int × StopReason)
  transcribeOutcome : Except Unit String
  outputOk : Bool

/-- The transcription phase shared by cmd_start_toggle (src/main.rs 196-224)
and cmd_start_fixed (src/main.rs 264-291): write the processing marker file,
register a scope guard that removes it, transcribe, and output non-empty
text; the guard removes the marker on every exit of the phase. -/
def processPhase (transcribeOutcome : Except Unit String) (outputOk : Bool)
    (st : Store) : CmdResult × Store × List Event :=
  let st1 : Store := { st with processing := true }
  match transcribeOutcome with
  | .error _ =>
    (.err, { st1 with processing := false },
      [.markerSet, .transcribeStart, .markerRemoved])
  | .ok text =>
    if text.isEmpty then
      (.ok, { st1 with processing := false },
        [.markerSet, .transcribeStart, .transcribeEnd, .markerRemoved])
    else if outputOk then
      (.ok, { st1 with processing := false },
        [.markerSet, .transcribeStart, .transcribeEnd, .outputDone, .markerRemoved])
    else
      (.err, { st1 with processing := false },
        [.markerSet, .transcribeStart, .transcribeEnd, .markerRemoved])

/-- cmd_start_toggle of src/main.rs (139-224): when a recording is active
the second start forwards a stop; otherwise it claims the SessionState,
registers a scope guard that releases it (cleanup_recording), and runs the
capture-transcribe pipeline, every exit path below passing through the
guard. -/
def cmdStartToggle (env : ToggleEnv) (st : Store) : CmdResult × Store × List Event :=
  match st.recording with
  | some rs => (.ok, stopRecording st rs, [.stopForwarded])
  | none =>
    let st1 : Store := { st with recording := some env.selfState }
    if !env.configOk then (.err, release st1 env.selfState, [.claimed])
    else if !env.modelExists then (.err, release st1 env.selfState, [.claimed])
    else if !env.transcriberOk then (.err, release st1 env.selfState, [.claimed])
    else
      match env.captureOutcome with
      | .error _ => (.err, release st1 env.selfState, [.claimed])
      | .ok (audio, _) =>
        if audio.isEmpty then
          (.ok, release st1 env.selfState, [.claimed, .captureEnd])
        else
          let phase := processPhase env.transcribeOutcome env.outputOk st1
          (phase.1, release phase.2.1 env.selfState,
            [.claimed, .captureEnd] ++ phase.2.2)

/-- cmd_start_fixed of src/main.rs (228-292): fixed-duration recording; no
SessionState is claimed, and the processing marker phase follows capture. -/
def cmdStartFixed (env : ToggleEnv) (st : Store) : CmdResult × Store × List Event :=
  if !env.configOk then (.err, st, [])
  else if !env.modelExists then (.err, st, [])
  else if !env.transcriberOk then (.err, st, [])
  else
    match env.captureOutcome with
    | .error _ => (.err, st, [])
    | .ok _ =>
      let phase := processPhase env.transcribeOutcome env.outputOk st
      (phase.1, phase.2.1, [.captureEnd] ++ phase.2.2)

/-- Override the stop reason a successful capture reports, leaving
everything else of the oracle unchanged. -/
def setReason (env : ToggleEnv) (r : StopReason) : ToggleEnv :=
  { env with
    captureOutcome :=
      match env.captureOutcome with
      | .ok (audio, _) => .ok (audio, r)
      | e => e }

/-- Modelled from the spec: audio capture (audio::capture_toggle) is not
under src/. The capture loop polls the cooperative stop flag once per tick
and returns when the flag is set or the maximum number of ticks elapsed
(spec sections 4.3 and 6); it yields the tick it stopped at and the reason. -/
def captureLoop (flag : Nat → Bool) : Nat → Nat → Nat × StopReason
  | 0, t => (t, .timedOut)
  | fuel + 1, t => if flag t then (t, .signaled) else captureLoop flag fuel (t + 1)

/-- Toggle-mode capture: bounded by the maximum duration, starting at tick 0. -/
def captureToggle (maxDuration : Nat) (flag : Nat → Bool) : Nat × StopReason :=
  captureLoop flag maxDuration 0

/-- The events of a trace strictly before the first occurrence of e. -/
def eventsBefore : List Event → Event → List Event
  | [], _ => []
  | x :: xs, e => if x = e then [] else x :: eventsBefore xs e

/-! ## Model download and verification (src/model/download.rs, verify.rs) -/

/-- A filesystem path, split as directory, stem and extension, mirroring how
download.rs builds paths (dest_dir.join(filename) and with_extension). -/
structure FsPath where
  dir : String
  stem : String
  ext : String
  deriving DecidableEq, Repr

/-- Path::with_extension: replace the extension. -/
def withExtension (p : FsPath) (e : String) : FsPath := { p with ext := e }

/-- Registry entry for a model (ModelInfo of the model registry as used by
download.rs); the on-disk filename is stem plus extension. -/
structure ModelInfo where
  name : String
  stem : String
  ext : String
  url : String
  sha256 : String
  deriving DecidableEq, Repr

/-- The filesystem as a finite map from paths to byte contents. -/
abbrev FileSys := List (FsPath × List Nat)

/-- Contents at a path, if the file exists. -/
def fsRead : FileSys → FsPath → Option (List Nat)
  | [], _ => none
  | (p, c) :: rest, q => if p = q then some c else fsRead rest q

/-- fs::remove_file. -/
def fsRemove : FileSys → FsPath → FileSys
  | [], _ => []
  | (p, c) :: rest, q => if p = q then fsRemove rest q else (p, c) :: fsRemove rest q

/-- File::create plus writing the full contents. -/
def fsWrite (fs : FileSys) (p : FsPath) (c : List Nat) : FileSys :=
  (p, c) :: fsRemove fs p

/-- fs::rename: atomically move the contents at src onto dst. -/
def fsRename (fs : FileSys) (src dst : FsPath) : FileSys :=
  match fsRead fs src with
  | some c => fsWrite (fsRemove fs src) dst c
  | none => fs

/-- verify_checksum of src/model/verify.rs: hash the file contents and
compare with the expected hex digest; Err when the file cannot be opened.
The SHA256 digest function is abstracted as the hash parameter. -/
def verifyChecksum (hash : List Nat → String) (fs : FileSys) (p : FsPath)
    (expected : String) : Except Unit Bool :=
  match fsRead fs p with
  | none => .error ()
  | some content => .ok (decide (hash content = expected))

/-- Failures of download_model. -/
inductive DownloadErr where
  | connectFailed
  | readFailed
  | checksumMismatch
  | ioError
  deriving DecidableEq, Repr

/-- Result of download_model: the returned path or error, the final
filesystem, and whether the network was contacted. -/
structure DlOutcome where
  result : Except DownloadErr FsPath
  fs : FileSys
  fetched : Bool

/-- The fresh-download tail of download_model (src/model/download.rs 31-93):
write the body to the temporary .download file, verify its checksum reading
it back, and only on success rename it onto the destination; on mismatch
remove the temporary file and fail. The network is an oracle: connect
failure, a read failure after an incomplete body, or the full body. -/
def downloadFresh (hash : List Nat → String) (model : ModelInfo) (dest : FsPath)
    (net : Except (Option (List Nat)) (List Nat)) (fs : FileSys) : DlOutcome :=
  let temp := withExtension dest "download"
  match net with
  | .error none => ⟨.error .connectFailed, fs, true⟩
  | .error (some received) => ⟨.error .readFailed, fsWrite fs temp received, true⟩
  | .ok body =>
    let fs1 := fsWrite fs temp body
    match verifyChecksum hash fs1 temp model.sha256 with
    | .error _ => ⟨.error .ioError, fs1, true⟩
    | .ok true => ⟨.ok dest, fsRename fs1 temp dest, true⟩
    | .ok false => ⟨.error .checksumMismatch, fsRemove fs1 temp, true⟩

/-- download_model of src/model/download.rs (11-94): keep a pre-existing
destination file only if it passes verification, otherwise remove it and
download afresh. -/
def downloadModel (hash : List Nat → String) (model : ModelInfo) (destDir : String)
    (net : Except (Option (List Nat)) (List Nat)) (fs0 : FileSys) : DlOutcome :=
  let dest : FsPath := ⟨destDir, model.stem, model.ext⟩
  match fsRead fs0 dest with
  | some _ =>
    match verifyChecksum hash fs0 dest model.sha256 with
    | .error _ => ⟨.error .ioError, fs0, false⟩
    | .ok true => ⟨.ok dest, fs0, false⟩
    | .ok false => downloadFresh hash model dest net (fsRemove fs0 dest)
  | none => downloadFresh hash model dest net fs0

/-- A concrete stand-in digest function used by the download witness. -/
def hash0 : List Nat → String := fun body => if body = [1, 2] then "good" else "bad"

/-- A concrete model registry entry used by the download witness. -/
def model0 : ModelInfo := ⟨"base.en", "ggml-base.en", "bin", "huggingface", "good"⟩

/-- The destination path of model0 under the models directory. -/
def dest0 : FsPath := ⟨"models", "ggml-base.en", "bin"⟩

/-! ## Theorems -/

/-- C2: For every ControlRequest variant (Ping, StartRecording, StopRecording,
Shutdown) and every ControlResponse variant (Ok, Recording, Success, Error),
with arbitrary message strings (hence also strings containing quotes,
newlines, tabs, and non-ASCII text), decoding the encoding of the value
yields the value back: decode(encode(v)) = ok v. -/
theorem protocol_roundtrip (rq : DaemonRequest) (rs : DaemonResponse) :
    decodeRequest (encodeRequest rq) = .ok rq ∧
    decodeResponse (encodeResponse rs) = .ok rs := by
  constructor
  · cases rq <;> rfl
  · cases rs <;> rfl

/-- C3: Decoding is strict and total in its error reporting: empty input is a
decode error, non-object input is a decode error, a missing or unknown type
discriminant is a decode error, a missing required field for a known
discriminant is a decode error for requests (StartRecording without
max_duration) and for responses alike (Ok, Success and Error without their
message or text field), and a successful decode only ever comes from an
object tagged with the discriminant of the returned variant whose required
payload field holds exactly the returned payload — decode is a total
function into Except, so it never panics, never coerces to a default
variant, and never defaults a missing field. -/
theorem decode_strict :
    decodeRequestInput none = .error .emptyInput ∧
    decodeResponseInput none = .error .emptyInput ∧
    (∀ s n, decodeRequest (.str s) = .error .notAnObject ∧
      decodeRequest (.num n) = .error .notAnObject ∧
      decodeResponse (.str s) = .error .notAnObject) ∧
    (∀ fields, getField fields "type" = none →
      decodeRequest (.obj fields) = .error .missingTag ∧
      decodeResponse (.obj fields) = .error .missingTag) ∧
    (∀ fields t, getField fields "type" = some (.str t) → t ∉ requestTags →
      decodeRequest (.obj fields) = .error (.unknownTag t)) ∧
    (∀ fields t, getField fields "type" = some (.str t) → t ∉ responseTags →
      decodeResponse (.obj fields) = .error (.unknownTag t)) ∧
    (∀ fields, getField fields "type" = some (.str "StartRecording") →
      getField fields "max_duration" = none →
      decodeRequest (.obj fields) = .error (.missingField "max_duration")) ∧
    (∀ j rq, decodeRequest j = .ok rq →
      ∃ fields, j = .obj fields ∧ getField fields "type" = some (.str (requestTag rq))) ∧
    (∀ j rs, decodeResponse j = .ok rs →
      ∃ fields, j = .obj fields ∧ getField fields "type" = some (.str (responseTag rs))) ∧
    (∀ fields, getField fields "type" = some (.str "Ok") →
      getField fields "message" = none →
      decodeResponse (.obj fields) = .error (.missingField "message")) ∧
    (∀ fields, getField fields "type" = some (.str "Success") →
      getField fields "text" = none →
      decodeResponse (.obj fields) = .error (.missingField "text")) ∧
    (∀ fields, getField fields "type" = some (.str "Error") →
      getField fields "message" = none →
      decodeResponse (.obj fields) = .error (.missingField "message")) ∧
    (∀ j d, decodeRequest j = .ok (.startRecording d) →
      ∃ fields, j = .obj fields ∧ getField fields "max_duration" = some (.num d)) ∧
    (∀ j m, decodeResponse j = .ok (.ok m) →
      ∃ fields, j = .obj fields ∧ getField fields "message" = some (.str m)) ∧
    (∀ j t, decodeResponse j = .ok (.success t) →
      ∃ fields, j = .obj fields ∧ getField fields "text" = some (.str t)) ∧
    (∀ j m, decodeResponse j = .ok (.error m) →
      ∃ fields, j = .obj fields ∧ getField fields "message" = some (.str m)) := by
  refine ⟨rfl, rfl, ?_, ?_, ?_, ?_, ?_, ?_, ?_, ?_, ?_, ?_, ?_, ?_, ?_, ?_⟩
  · intro s n
    exact ⟨rfl, rfl, rfl⟩
  · intro fields h
    constructor
    · simp [decodeRequest, h]
    · simp [decodeResponse, h]
  · intro fields t h hmem
    simp only [requestTags, List.mem_cons, List.not_mem_nil, or_false] at hmem
    push_neg at hmem
    obtain ⟨h1, h2, h3, h4⟩ := hmem
    simp [decodeRequest, h, h1, h2, h3, h4]
  · intro fields t h hmem
    simp only [responseTags, List.mem_cons, List.not_mem_nil, or_false] at hmem
    push_neg at hmem
    obtain ⟨h1, h2, h3, h4⟩ := hmem
    simp [decodeResponse, h, h1, h2, h3, h4]
  · intro fields h hmd
    simp [decodeRequest, h, hmd]
  · intro j rq h
    cases j with
    | str s => simp [decodeRequest] at h
    | num n => simp [decodeRequest] at h
    | bool b => simp [decodeRequest] at h
    | null => simp [decodeRequest] at h
    | arr es => simp [decodeRequest] at h
    | obj fields =>
      refine ⟨fields, rfl, ?_⟩
      simp only [decodeRequest] at h
      split at h
      · next t heq =>
        rw [heq]
        split_ifs at h with h1 h2 h3 h4
        · cases h; simp [requestTag, h1]
        · split at h
          · cases h; simp [requestTag, h2]
          · cases h
          · cases h
        · cases h; simp [requestTag, h3]
        · cases h; simp [requestTag, h4]
      · next heq _ => cases h
      · next heq => cases h
  · intro j rs h
    cases j with
    | str s => simp [decodeResponse] at h
    | num n => simp [decodeResponse] at h
    | bool b => simp [decodeResponse] at h
    | null => simp [decodeResponse] at h
    | arr es => simp [decodeResponse] at h
    | obj fields =>
      refine ⟨fields, rfl, ?_⟩
      simp only [decodeResponse] at h
      split at h
      · next t heq =>
        rw [heq]
        split_ifs at h with h1 h2 h3 h4
        · split at h
          · cases h; simp [responseTag, h1]
          · cases h
          · cases h
        · cases h; simp [responseTag, h2]
        · split at h
          · cases h; simp [responseTag, h3]
          · cases h
          · cases h
        · split at h
          · cases h; simp [responseTag, h4]
          · cases h
          · cases h
      · next heq _ => cases h
      · next heq => cases h
  · intro fields h hm
    simp [decodeResponse, h, hm]
  · intro fields h hm
    simp [decodeResponse, h, hm]
  · intro fields h hm
    simp [decodeResponse, h, hm]
  · intro j d h
    cases j with
    | str s => simp [decodeRequest] at h
    | num n => simp [decodeRequest] at h
    | bool b => simp [decodeRequest] at h
    | null => simp [decodeRequest] at h
    | arr es => simp [decodeRequest] at h
    | obj fields =>
      refine ⟨fields, rfl, ?_⟩
      simp only [decodeRequest] at h
      split at h
      · next t heq =>
        split_ifs at h with h1 h2 h3 h4
        · simp at h
        · split at h
          · next d0 heq2 =>
            simp only [Except.ok.injEq, DaemonRequest.startRecording.injEq] at h
            subst h
            exact heq2
          · cases h
          · cases h
        · simp at h
        · simp at h
      · next heq _ => cases h
      · next heq => cases h
  · intro j m h
    cases j with
    | str s => simp [decodeResponse] at h
    | num n => simp [decodeResponse] at h
    | bool b => simp [decodeResponse] at h
    | null => simp [decodeResponse] at h
    | arr es => simp [decodeResponse] at h
    | obj fields =>
      refine ⟨fields, rfl, ?_⟩
      simp only [decodeResponse] at h
      split at h
      · next t heq =>
        split_ifs at h with h1 h2 h3 h4
        · split at h
          · next m0 heq2 =>
            simp only [Except.ok.injEq, DaemonResponse.ok.injEq] at h
            subst h
            exact heq2
          · cases h
          · cases h
        · simp at h
        · split at h
          · simp at h
          · cases h
          · cases h
        · split at h
          · simp at h
          · cases h
          · cases h
      · next heq _ => cases h
      · next heq => cases h
  · intro j t0 h
    cases j with
    | str s => simp [decodeResponse] at h
    | num n => simp [decodeResponse] at h
    | bool b => simp [decodeResponse] at h
    | null => simp [decodeResponse] at h
    | arr es => simp [decodeResponse] at h
    | obj fields =>
      refine ⟨fields, rfl, ?_⟩
      simp only [decodeResponse] at h
      split at h
      · next t heq =>
        split_ifs at h with h1 h2 h3 h4
        · split at h
          · simp at h
          · cases h
          · cases h
        · simp at h
        · split at h
          · next s0 heq2 =>
            simp only [Except.ok.injEq, DaemonResponse.success.injEq] at h
            subst h
            exact heq2
          · cases h
          · cases h
        · split at h
          · simp at h
          · cases h
          · cases h
      · next heq _ => cases h
      · next heq => cases h
  · intro j m h
    cases j with
    | str s => simp [decodeResponse] at h
    | num n => simp [decodeResponse] at h
    | bool b => simp [decodeResponse] at h
    | null => simp [decodeResponse] at h
    | arr es => simp [decodeResponse] at h
    | obj fields =>
      refine ⟨fields, rfl, ?_⟩
      simp only [decodeResponse] at h
      split at h
      · next t heq =>
        split_ifs at h with h1 h2 h3 h4
        · split at h
          · simp at h
          · cases h
          · cases h
        · simp at h
        · split at h
          · simp at h
          · cases h
          · cases h
        · split at h
          · next m0 heq2 =>
            simp only [Except.ok.injEq, DaemonResponse.error.injEq] at h
            subst h
            exact heq2
          · cases h
          · cases h
      · next heq _ => cases h
      · next heq => cases h

/-- Witness for C3 at concrete inputs: the unknown discriminant of
tests/daemon_protocol.rs fails to decode, empty input fails to decode, and
a response object tagged Ok that lacks its message field fails to decode. -/
theorem decode_strict_witness :
    decodeRequest (.obj [("type", .str "unknown_command")]) =
      .error (.unknownTag "unknown_command") ∧
    decodeRequestInput none = .error .emptyInput ∧
    decodeResponse (.obj [("type", .str "Ok")]) = .error (.missingField "message") :=
  ⟨decode_strict.2.2.2.2.1 [("type", .str "unknown_command")] "unknown_command"
      rfl (by decide),
    decode_strict.1,
    decode_strict.2.2.2.2.2.2.2.2.2.1 [("type", .str "Ok")] rfl rfl⟩

/-- A claim against an occupied store fails and leaves the store unchanged. -/
theorem claim_on_active {st : Store} {s : RecordingState} (p : RecordingState)
    (h : st.recording = some s) : claim st p = (.alreadyActive s, st) := by
  simp [claim, h]

/-- Every claim of a sequence against an occupied store fails with the
existing state, and the store never changes. -/
theorem runClaims_on_active {st : Store} {s : RecordingState}
    (h : st.recording = some s) (ps : List RecordingState) :
    runClaims st ps = (ps.map fun _ => .alreadyActive s, st) := by
  induction ps with
  | nil => simp [runClaims]
  | cons p ps ih => simp [runClaims, claim_on_active p h, ih]

/-- C1: At most one SessionState exists at any instant: claim is an atomic
create-if-absent, so whenever a SessionState is present a claim returns
AlreadyActive carrying the existing SessionState and changes nothing, and
among any interleaving of concurrent claim attempts against an empty store
the first succeeds, every other attempt receives AlreadyActive carrying the
winning SessionState, and exactly one attempt in total succeeds. -/
theorem claim_exactly_one (st : Store) (s p w : RecordingState)
    (rest : List RecordingState) (h : st.recording = some s) :
    claim st p = (.alreadyActive s, st) ∧
    runClaims emptyStore (w :: rest) =
      (.claimed w :: rest.map (fun _ => .alreadyActive w), ⟨some w, false⟩) ∧
    (runClaims emptyStore (w :: rest)).1.countP (fun r => r.isClaimed) = 1 ∧
    (runClaims emptyStore (w :: rest)).1.countP (fun r => !r.isClaimed) = rest.length := by
  have hrun : runClaims emptyStore (w :: rest) =
      (.claimed w :: rest.map (fun _ => .alreadyActive w), ⟨some w, false⟩) := by
    have hcl : claim emptyStore w = (.claimed w, ⟨some w, false⟩) := rfl
    have hact : (⟨some w, false⟩ : Store).recording = some w := rfl
    simp [runClaims, hcl, runClaims_on_active hact rest]
  refine ⟨claim_on_active p h, hrun, ?_, ?_⟩
  · simp [hrun, List.countP_cons, List.countP_map, ClaimResult.isClaimed,
      Function.comp_def]
  · rw [hrun]
    rw [List.countP_cons]
    have hall : ∀ a ∈ List.map (fun _ => ClaimResult.alreadyActive w) rest,
        (fun r : ClaimResult => !r.isClaimed) a = true := by
      intro a ha
      obtain ⟨x, _, rfl⟩ := List.mem_map.mp ha
      rfl
    rw [List.countP_eq_length.mpr hall, List.length_map]
    simp [ClaimResult.isClaimed]

/-- Witness for C1: the second of two concurrent claims receives
AlreadyActive carrying the first claim, and of three interleaved claims
against an empty store exactly one succeeds. -/
theorem claim_exactly_one_witness :
    claim ⟨some ⟨1, 10⟩, false⟩ ⟨2, 11⟩ = (.alreadyActive ⟨1, 10⟩, ⟨some ⟨1, 10⟩, false⟩) ∧
    (runClaims emptyStore [⟨1, 10⟩, ⟨2, 11⟩, ⟨3, 12⟩]).1.countP (fun r => r.isClaimed) = 1 ∧
    (runClaims emptyStore [⟨1, 10⟩, ⟨2, 11⟩, ⟨3, 12⟩]).1.countP (fun r => !r.isClaimed) = 2 := by
  have h := claim_exactly_one ⟨some ⟨1, 10⟩, false⟩ ⟨1, 10⟩ ⟨2, 11⟩ ⟨1, 10⟩
    [⟨2, 11⟩, ⟨3, 12⟩] rfl
  exact ⟨h.1, h.2.2.1, h.2.2.2⟩

/-- C7: release removes the SessionState file only when the stored contents
still equal the expected state (and touches nothing else); when the file is
absent or holds a non-matching SessionState, release is a no-op that leaves
the store unchanged, and it is not an error in either case. -/
theorem release_compare_and_remove (st : Store) (expected cur : RecordingState) :
    (st.recording = some expected →
      (release st expected).recording = none ∧
      (release st expected).processing = st.processing) ∧
    (st.recording = none → release st expected = st) ∧
    (st.recording = some cur → cur ≠ expected → release st expected = st) := by
  refine ⟨?_, ?_, ?_⟩
  · intro h
    simp [release, h]
  · intro h
    simp [release, h]
  · intro h hne
    simp [release, h, hne]

/-- Witness for C7: a matching release empties the store, a release against
the empty store is the identity, and a non-matching release changes nothing. -/
theorem release_compare_and_remove_witness :
    (release ⟨some ⟨1, 10⟩, false⟩ ⟨1, 10⟩).recording = none ∧
    release emptyStore ⟨1, 10⟩ = emptyStore ∧
    release ⟨some ⟨2, 11⟩, false⟩ ⟨1, 10⟩ = ⟨some ⟨2, 11⟩, false⟩ :=
  ⟨(release_compare_and_remove ⟨some ⟨1, 10⟩, false⟩ ⟨1, 10⟩ ⟨1, 10⟩).1 rfl |>.1,
    (release_compare_and_remove emptyStore ⟨1, 10⟩ ⟨1, 10⟩).2.1 rfl,
    (release_compare_and_remove ⟨some ⟨2, 11⟩, false⟩ ⟨1, 10⟩ ⟨2, 11⟩).2.2 rfl
      (by decide)⟩

/-- C5: Against a store whose SessionState is present, StartRecording yields
the Recording response — never an Error response — and performs no second
claim (the store is returned unchanged); at the user level, the toggle-mode
start command run against an active session forwards a stop instead of
claiming (its trace holds no claimed event). -/
theorem start_on_active_yields_recording (st : Store) (self s : RecordingState)
    (d : Nat) (env : ToggleEnv) (h : st.recording = some s) :
    handleRequest st self (.startRecording d) = (.recording, st) ∧
    (∀ m, (handleRequest st self (.startRecording d)).1 ≠ .error m) ∧
    cmdStartToggle env st = (.ok, stopRecording st s, [.stopForwarded]) ∧
    .claimed ∉ (cmdStartToggle env st).2.2 := by
  have hh : handleRequest st self (.startRecording d) = (.recording, st) := by
    simp [handleRequest, h]
  have ht : cmdStartToggle env st = (.ok, stopRecording st s, [.stopForwarded]) := by
    simp [cmdStartToggle, h]
  refine ⟨hh, ?_, ht, ?_⟩
  · intro m
    simp [hh]
  · simp [ht]

/-- Witness for C5 at a concrete active store. -/
theorem start_on_active_yields_recording_witness :
    handleRequest ⟨some ⟨1, 10⟩, false⟩ ⟨2, 11⟩ (.startRecording 300) =
      (.recording, ⟨some ⟨1, 10⟩, false⟩) :=
  (start_on_active_yields_recording ⟨some ⟨1, 10⟩, false⟩ ⟨2, 11⟩ ⟨1, 10⟩ 300
    ⟨⟨2, 11⟩, true, true, true, .ok ([1], .signaled), .ok "hi", true⟩ rfl).1

/-- C6: Against a store with no SessionState, StopRecording yields the
Ok response with message nothing to stop and leaves the store unchanged;
the stop command of src/main.rs likewise reports that no recording is in
progress and changes nothing. -/
theorem stop_on_idle_nothing_to_stop (st : Store) (self : RecordingState)
    (h : st.recording = none) :
    handleRequest st self .stopRecording = (.ok "nothing to stop", st) ∧
    cmdStop st = ("No recording in progress", st) := by
  constructor
  · simp [handleRequest, h]
  · simp [cmdStop, h]

/-- Witness for C6 at the empty store. -/
theorem stop_on_idle_nothing_to_stop_witness :
    handleRequest emptyStore ⟨1, 10⟩ .stopRecording = (.ok "nothing to stop", emptyStore) ∧
    cmdStop emptyStore = ("No recording in progress", emptyStore) :=
  stop_on_idle_nothing_to_stop emptyStore ⟨1, 10⟩ rfl

/-- Helper: release never touches the processing marker. -/
theorem release_processing (st : Store) (x : RecordingState) :
    (release st x).processing = st.processing := by
  rcases st with ⟨rec, pr⟩
  rcases rec with _ | cur
  · rfl
  · simp only [release]
    split_ifs <;> rfl

/-- Helper: the transcription phase never touches the SessionState file. -/
theorem processPhase_recording (t : Except Unit String) (o : Bool) (st : Store) :
    ((processPhase t o st).2.1).recording = st.recording := by
  rcases t with _ | text
  · rfl
  · simp only [processPhase]
    split_ifs <;> rfl

/-- Helper: the transcription phase always clears the processing marker. -/
theorem processPhase_processing (t : Except Unit String) (o : Bool) (st : Store) :
    ((processPhase t o st).2.1).processing = false := by
  rcases t with _ | text
  · rfl
  · simp only [processPhase]
    split_ifs <;> rfl

/-- C4: Every execution of the toggle start command that claims the
SessionState releases it on every exit path — the scope guard registered at
claim time runs on normal completion, on a stop delivered by signal, on the
duration timeout, and on any failing collaborator (config, missing model,
transcriber construction, capture, transcription, output; abnormal
termination is modelled as the unwinding error exit, which also runs the
guard) — so the final store holds no SessionState. -/
theorem toggle_releases_on_all_exits (env : ToggleEnv) (st : Store)
    (h : st.recording = none) :
    ((cmdStartToggle env st).2.1).recording = none := by
  have hself : ∀ st2 : Store, st2.recording = some env.selfState →
      (release st2 env.selfState).recording = none := by
    intro st2 h2
    simp [release, h2]
  simp only [cmdStartToggle, h]
  split_ifs
  · exact hself _ rfl
  · exact hself _ rfl
  · exact hself _ rfl
  · split
    · exact hself _ rfl
    · next audio r =>
      split_ifs
      · exact hself _ rfl
      · exact hself _ (by rw [processPhase_recording])

/-- Witness for C4: a full successful run against the idle store, stopped by
signal, ends with no SessionState on disk. -/
theorem toggle_releases_on_all_exits_witness :
    ((cmdStartToggle ⟨⟨1, 10⟩, true, true, true, .ok ([1], .signaled), .ok "hi", true⟩
        emptyStore).2.1).recording = none :=
  toggle_releases_on_all_exits
    ⟨⟨1, 10⟩, true, true, true, .ok ([1], .signaled), .ok "hi", true⟩ emptyStore rfl

/-- Helper: the capture loop advances the tick at most fuel times. -/
theorem captureLoop_le (flag : Nat → Bool) (fuel t : Nat) :
    (captureLoop flag fuel t).1 ≤ t + fuel := by
  induction fuel generalizing t with
  | zero => simp [captureLoop]
  | succ n ih =>
    simp only [captureLoop]
    split_ifs
    · omega
    · have := ih (t + 1)
      omega

/-- Helper: when the stop flag is never set, the loop runs its full fuel and
reports the timeout. -/
theorem captureLoop_noflag (fuel t : Nat) :
    captureLoop (fun _ => false) fuel t = (t + fuel, .timedOut) := by
  induction fuel generalizing t with
  | zero => simp [captureLoop]
  | succ n ih =>
    have hstep : captureLoop (fun _ => false) (n + 1) t =
        captureLoop (fun _ => false) n (t + 1) := by
      simp [captureLoop]
    rw [hstep, ih (t + 1)]
    have harith : t + 1 + n = t + (n + 1) := by omega
    rw [harith]

/-- C8: Capture never runs longer than the maximum-duration cap: the toggle
cap is 300 seconds; the capture loop stops no later than the cap for every
stop-flag history; with a stop signal that never arrives it still stops
exactly at the cap (so the cap is enforced independently of the termination
signal); and the toggle command behaves identically — same result, same
final store, same events, hence the same cleanup guarantee — whether a
capture ended because the stop flag was delivered or because the duration
cap was reached. -/
theorem capture_cap_enforced :
    TOGGLE_MODE_TIMEOUT_SECS = 300 ∧
    (∀ maxDuration flag, (captureToggle maxDuration flag).1 ≤ maxDuration) ∧
    (∀ maxDuration,
      captureToggle maxDuration (fun _ => false) = (maxDuration, .timedOut)) ∧
    (∀ env st r, cmdStartToggle (setReason env r) st =
      cmdStartToggle (setReason env .signaled) st) := by
  refine ⟨rfl, ?_, ?_, ?_⟩
  · intro maxDuration flag
    have hle := captureLoop_le flag maxDuration 0
    simpa [captureToggle] using hle
  · intro maxDuration
    have hnf := captureLoop_noflag maxDuration 0
    simpa [captureToggle] using hnf
  · intro env st r
    rcases env with ⟨self, cfg, mdl, trs, cap, tr, out⟩
    rcases cap with e | ⟨audio, r0⟩
    · rfl
    · rfl

/-- C9: The processing marker is created only after capture ends and before
the transcription collaborator is invoked, and on every exit of the
transcription phase — transcription error, empty transcript, output failure,
or success — the scope guard removes it: the phase trace opens with the
marker set immediately followed by the transcription start, closes with the
marker removal, and the final store never keeps the marker; in both start
commands a set marker in the trace is preceded by the capture end and by no
transcription start, and when the phase is never entered the marker file is
untouched. -/
theorem marker_lifecycle :
    (∀ t o st, ((processPhase t o st).2.1).processing = false ∧
      (processPhase t o st).2.2.head? = some .markerSet ∧
      (processPhase t o st).2.2.getLast? = some .markerRemoved ∧
      Event.transcribeStart ∈ (processPhase t o st).2.2) ∧
    (∀ env st,
      (Event.markerSet ∈ (cmdStartToggle env st).2.2 →
        Event.captureEnd ∈ eventsBefore (cmdStartToggle env st).2.2 .markerSet ∧
        Event.transcribeStart ∉ eventsBefore (cmdStartToggle env st).2.2 .markerSet ∧
        ((cmdStartToggle env st).2.1).processing = false ∧
        (cmdStartToggle env st).2.2.getLast? = some .markerRemoved) ∧
      (Event.markerSet ∉ (cmdStartToggle env st).2.2 →
        ((cmdStartToggle env st).2.1).processing = st.processing)) ∧
    (∀ env st,
      (Event.markerSet ∈ (cmdStartFixed env st).2.2 →
        Event.captureEnd ∈ eventsBefore (cmdStartFixed env st).2.2 .markerSet ∧
        Event.transcribeStart ∉ eventsBefore (cmdStartFixed env st).2.2 .markerSet ∧
        ((cmdStartFixed env st).2.1).processing = false ∧
        (cmdStartFixed env st).2.2.getLast? = some .markerRemoved) ∧
      (Event.markerSet ∉ (cmdStartFixed env st).2.2 →
        ((cmdStartFixed env st).2.1).processing = st.processing)) := by
  refine ⟨?_, ?_, ?_⟩
  · intro t o st
    rcases t with u | text
    · exact ⟨rfl, rfl, rfl, by simp [processPhase]⟩
    · simp only [processPhase]
      split_ifs
      · exact ⟨rfl, rfl, rfl, by simp⟩
      · exact ⟨rfl, rfl, rfl, by simp⟩
      · exact ⟨rfl, rfl, rfl, by simp⟩
  · intro env st
    rcases env with ⟨self, cfg, mdl, trs, cap, tr, out⟩
    rcases st with ⟨rec, pr⟩
    rcases rec with _ | rs
    · rcases cap with u | ⟨audio, r⟩
      · cases cfg <;> cases mdl <;> cases trs <;>
          simp [cmdStartToggle, release, eventsBefore]
      · by_cases ha : audio.isEmpty
        · cases cfg <;> cases mdl <;> cases trs <;>
            simp [cmdStartToggle, release, eventsBefore, ha]
        · rcases tr with v | text
          · cases cfg <;> cases mdl <;> cases trs <;>
              simp [cmdStartToggle, processPhase, release, eventsBefore, ha,
                List.getLast?_cons_cons, List.getLast?_singleton]
          · by_cases ht : text.isEmpty <;> cases out <;>
              cases cfg <;> cases mdl <;> cases trs <;>
              simp [cmdStartToggle, processPhase, release, eventsBefore, ha, ht,
                List.getLast?_cons_cons, List.getLast?_singleton]
    · simp [cmdStartToggle, stopRecording, release_processing, eventsBefore]
  · intro env st
    rcases env with ⟨self, cfg, mdl, trs, cap, tr, out⟩
    rcases st with ⟨rec, pr⟩
    rcases cap with u | ⟨audio, r⟩
    · cases cfg <;> cases mdl <;> cases trs <;>
        simp [cmdStartFixed, eventsBefore]
    · rcases tr with v | text
      · cases cfg <;> cases mdl <;> cases trs <;>
          simp [cmdStartFixed, processPhase, eventsBefore,
            List.getLast?_cons_cons, List.getLast?_singleton]
      · by_cases ht : text.isEmpty <;> cases out <;>
          cases cfg <;> cases mdl <;> cases trs <;>
          simp [cmdStartFixed, processPhase, eventsBefore, ht,
            List.getLast?_cons_cons, List.getLast?_singleton]

/-- Witness for C9: a successful toggle run creates the marker after the
capture ended and leaves no marker behind. -/
theorem marker_lifecycle_witness :
    Event.markerSet ∈
      (cmdStartToggle ⟨⟨1, 10⟩, true, true, true, .ok ([1], .signaled), .ok "hi", true⟩
        emptyStore).2.2 ∧
    Event.captureEnd ∈ eventsBefore
      (cmdStartToggle ⟨⟨1, 10⟩, true, true, true, .ok ([1], .signaled), .ok "hi", true⟩
        emptyStore).2.2 .markerSet ∧
    ((cmdStartToggle ⟨⟨1, 10⟩, true, true, true, .ok ([1], .signaled), .ok "hi", true⟩
        emptyStore).2.1).processing = false := by
  have hm : Event.markerSet ∈
      (cmdStartToggle ⟨⟨1, 10⟩, true, true, true, .ok ([1], .signaled), .ok "hi", true⟩
        emptyStore).2.2 := by decide
  have h := (marker_lifecycle.2.1
    ⟨⟨1, 10⟩, true, true, true, .ok ([1], .signaled), .ok "hi", true⟩ emptyStore).1 hm
  exact ⟨hm, h.1, h.2.2.1⟩

/-- Helper: reading a path just removed yields nothing. -/
theorem fsRead_fsRemove_self (fs : FileSys) (p : FsPath) :
    fsRead (fsRemove fs p) p = none := by
  induction fs with
  | nil => rfl
  | cons hd tl ih =>
    rcases hd with ⟨q, c⟩
    simp only [fsRemove]
    split_ifs with hq
    · exact ih
    · simpa [fsRead, hq] using ih

/-- Helper: removing one path leaves every other path unchanged. -/
theorem fsRead_fsRemove_ne (fs : FileSys) (p q : FsPath) (h : p ≠ q) :
    fsRead (fsRemove fs p) q = fsRead fs q := by
  induction fs with
  | nil => rfl
  | cons hd tl ih =>
    rcases hd with ⟨x, c⟩
    by_cases h1 : x = p
    · subst h1
      simp [fsRemove, fsRead, h, ih]
    · simp [fsRemove, fsRead, h1, ih]

/-- Helper: reading back a path just written yields the written contents. -/
theorem fsRead_fsWrite_self (fs : FileSys) (p : FsPath) (c : List Nat) :
    fsRead (fsWrite fs p c) p = some c := by
  simp [fsWrite, fsRead]

/-- Helper: writing one path leaves every other path unchanged. -/
theorem fsRead_fsWrite_ne (fs : FileSys) (p q : FsPath) (c : List Nat) (h : p ≠ q) :
    fsRead (fsWrite fs p c) q = fsRead fs q := by
  simp [fsWrite, fsRead, h, fsRead_fsRemove_ne fs p q h]

/-- Helper: every path through a fresh download contacts the network. -/
theorem downloadFresh_fetched (hash : List Nat → String) (model : ModelInfo)
    (dest : FsPath) (net : Except (Option (List Nat)) (List Nat)) (fs : FileSys) :
    (downloadFresh hash model dest net fs).fetched = true := by
  rcases net with p | body
  · rcases p with _ | received
    · rfl
    · rfl
  · simp only [downloadFresh]
    rcases hv : verifyChecksum hash (fsWrite fs (withExtension dest "download") body)
        (withExtension dest "download") model.sha256 with u | b
    · simp [hv]
    · rcases b with _ | _ <;> simp [hv]

/-- Helper: after a fresh download against a filesystem where the
destination is absent, the destination holds contents only when they hash
to the expected checksum. -/
theorem downloadFresh_dest_verified (hash : List Nat → String) (model : ModelInfo)
    (destDir : String) (net : Except (Option (List Nat)) (List Nat)) (fs : FileSys)
    (hext : model.ext ≠ "download")
    (hd : fsRead fs ⟨destDir, model.stem, model.ext⟩ = none) :
    ∀ c, fsRead (downloadFresh hash model ⟨destDir, model.stem, model.ext⟩ net fs).fs
        ⟨destDir, model.stem, model.ext⟩ = some c → hash c = model.sha256 := by
  intro c hc
  have htd : (⟨destDir, model.stem, "download"⟩ : FsPath) ≠
      ⟨destDir, model.stem, model.ext⟩ := by
    intro hEq
    exact hext (congrArg FsPath.ext hEq).symm
  rcases net with p | body
  · rcases p with _ | received
    · rw [show (downloadFresh hash model ⟨destDir, model.stem, model.ext⟩
          (.error none) fs).fs = fs from rfl, hd] at hc
      cases hc
    · rw [show (downloadFresh hash model ⟨destDir, model.stem, model.ext⟩
          (.error (some received)) fs).fs =
          fsWrite fs ⟨destDir, model.stem, "download"⟩ received from rfl,
        fsRead_fsWrite_ne _ _ _ _ htd, hd] at hc
      cases hc
  · by_cases hb : hash body = model.sha256
    · have hfs : (downloadFresh hash model ⟨destDir, model.stem, model.ext⟩
          (.ok body) fs).fs =
          fsRename (fsWrite fs ⟨destDir, model.stem, "download"⟩ body)
            ⟨destDir, model.stem, "download"⟩ ⟨destDir, model.stem, model.ext⟩ := by
        simp [downloadFresh, withExtension, verifyChecksum, fsRead_fsWrite_self, hb]
      rw [hfs] at hc
      rw [show fsRename (fsWrite fs ⟨destDir, model.stem, "download"⟩ body)
          ⟨destDir, model.stem, "download"⟩ ⟨destDir, model.stem, model.ext⟩ =
          fsWrite (fsRemove (fsWrite fs ⟨destDir, model.stem, "download"⟩ body)
            ⟨destDir, model.stem, "download"⟩) ⟨destDir, model.stem, model.ext⟩ body
          from by simp [fsRename, fsRead_fsWrite_self],
        fsRead_fsWrite_self] at hc
      cases hc
      exact hb
    · have hfs : (downloadFresh hash model ⟨destDir, model.stem, model.ext⟩
          (.ok body) fs).fs =
          fsRemove (fsWrite fs ⟨destDir, model.stem, "download"⟩ body)
            ⟨destDir, model.stem, "download"⟩ := by
        simp [downloadFresh, withExtension, verifyChecksum, fsRead_fsWrite_self, hb]
      rw [hfs, fsRead_fsRemove_ne _ _ _ htd, fsRead_fsWrite_ne _ _ _ _ htd, hd] at hc
      cases hc

/-- C10: download_model is atomic with respect to the destination path: a
file sits at the destination in the final filesystem only if its checksum
equals the expected value; a fresh download whose checksum mismatches
removes the temporary .download file, leaves no destination file, and
returns the checksum error; a pre-existing destination file that fails
verification is removed and the download is performed; and one that passes
is returned without contacting the network, with the filesystem untouched. -/
theorem download_model_atomic (hash : List Nat → String) (model : ModelInfo)
    (destDir : String) (net : Except (Option (List Nat)) (List Nat)) (fs0 : FileSys)
    (hext : model.ext ≠ "download") :
    (∀ c, fsRead (downloadModel hash model destDir net fs0).fs
        ⟨destDir, model.stem, model.ext⟩ = some c → hash c = model.sha256) ∧
    (∀ body, fsRead fs0 ⟨destDir, model.stem, model.ext⟩ = none → net = .ok body →
      hash body ≠ model.sha256 →
      (downloadModel hash model destDir net fs0).result = .error .checksumMismatch ∧
      fsRead (downloadModel hash model destDir net fs0).fs
        ⟨destDir, model.stem, "download"⟩ = none ∧
      fsRead (downloadModel hash model destDir net fs0).fs
        ⟨destDir, model.stem, model.ext⟩ = none) ∧
    (∀ c, fsRead fs0 ⟨destDir, model.stem, model.ext⟩ = some c →
      hash c ≠ model.sha256 →
      downloadModel hash model destDir net fs0 =
        downloadFresh hash model ⟨destDir, model.stem, model.ext⟩ net
          (fsRemove fs0 ⟨destDir, model.stem, model.ext⟩) ∧
      (downloadModel hash model destDir net fs0).fetched = true) ∧
    (∀ c, fsRead fs0 ⟨destDir, model.stem, model.ext⟩ = some c →
      hash c = model.sha256 →
      downloadModel hash model destDir net fs0 =
        ⟨.ok ⟨destDir, model.stem, model.ext⟩, fs0, false⟩) := by
  have htd : (⟨destDir, model.stem, "download"⟩ : FsPath) ≠
      ⟨destDir, model.stem, model.ext⟩ := by
    intro hEq
    exact hext (congrArg FsPath.ext hEq).symm
  refine ⟨?_, ?_, ?_, ?_⟩
  · rcases hd : fsRead fs0 ⟨destDir, model.stem, model.ext⟩ with _ | c0
    · have hred : downloadModel hash model destDir net fs0 =
          downloadFresh hash model ⟨destDir, model.stem, model.ext⟩ net fs0 := by
        simp [downloadModel, hd]
      rw [hred]
      exact downloadFresh_dest_verified hash model destDir net fs0 hext hd
    · by_cases hc0 : hash c0 = model.sha256
      · have hred : downloadModel hash model destDir net fs0 =
            ⟨.ok ⟨destDir, model.stem, model.ext⟩, fs0, false⟩ := by
          simp [downloadModel, hd, verifyChecksum, hc0]
        rw [hred]
        intro c hc
        rw [hd] at hc
        cases hc
        exact hc0
      · have hred : downloadModel hash model destDir net fs0 =
            downloadFresh hash model ⟨destDir, model.stem, model.ext⟩ net
              (fsRemove fs0 ⟨destDir, model.stem, model.ext⟩) := by
          simp [downloadModel, hd, verifyChecksum, hc0]
        rw [hred]
        exact downloadFresh_dest_verified hash model destDir net _ hext
          (fsRead_fsRemove_self fs0 _)
  · intro body hd hnet hb
    subst hnet
    have hred : downloadModel hash model destDir (.ok body) fs0 =
        downloadFresh hash model ⟨destDir, model.stem, model.ext⟩ (.ok body) fs0 := by
      simp [downloadModel, hd]
    have hfresh : downloadFresh hash model ⟨destDir, model.stem, model.ext⟩
        (.ok body) fs0 =
        ⟨.error .checksumMismatch,
          fsRemove (fsWrite fs0 ⟨destDir, model.stem, "download"⟩ body)
            ⟨destDir, model.stem, "download"⟩, true⟩ := by
      simp [downloadFresh, withExtension, verifyChecksum, fsRead_fsWrite_self, hb]
    rw [hred, hfresh]
    refine ⟨rfl, fsRead_fsRemove_self _ _, ?_⟩
    rw [fsRead_fsRemove_ne _ _ _ htd, fsRead_fsWrite_ne _ _ _ _ htd, hd]
  · intro c hd hc
    have hred : downloadModel hash model destDir net fs0 =
        downloadFresh hash model ⟨destDir, model.stem, model.ext⟩ net
          (fsRemove fs0 ⟨destDir, model.stem, model.ext⟩) := by
      simp [downloadModel, hd, verifyChecksum, hc]
    exact ⟨hred, by rw [hred]; exact downloadFresh_fetched _ _ _ _ _⟩
  · intro c hd hc
    simp [downloadModel, hd, verifyChecksum, hc]

/-- Witness for C10: a stale destination file failing verification is
re-downloaded, and the verified fresh body ends up hashing to the expected
checksum at the destination. -/
theorem download_model_atomic_witness :
    (downloadModel hash0 model0 "models" (.ok [1, 2]) [(dest0, [9])]).fetched = true ∧
    hash0 [1, 2] = model0.sha256 := by
  have h := download_model_atomic hash0 model0 "models" (.ok [1, 2]) [(dest0, [9])]
    (by decide)
  refine ⟨(h.2.2.1 [9] (by decide) (by decide)).2, h.1 [1, 2] (by decide)⟩

end DevVoice
